import Mathlib

/-!
Verification of the Vibe Ideas voting and aggregation subsystem.

The embedding follows `main.py` and `schemas.py`. The MongoDB document
store itself (the `database` module with `db` and `create_document`) is
not part of the source tree; it is modelled from the spec as an
in-memory state of three collections, with `find_one` returning the
first matching document, `update_one` with an `inc` modifier updating
the first matching document, and inserts appending a document whose
generated identifier is fresh.
-/

namespace VibeIdeas

/-- `Idea` document, from `schemas.py`: counters default to 0. -/
structure Idea where
  title : String
  description : String
  link : Option String
  votes_count : Nat
  comments_count : Nat
deriving Repr, DecidableEq

/-- `Comment` document, from `schemas.py`. -/
structure Comment where
  post_id : String
  author : String
  text : String
deriving Repr, DecidableEq

/-- `Vote` document, from `schemas.py`. -/
structure Vote where
  post_id : String
  ip : String
deriving Repr, DecidableEq

/-- Modelled from the spec: the document store (`database.py` is not in
the source tree) holds three independent collections. Ideas are stored
with their generated string identifier; comment and vote identifiers
play no role in the endpoints, so those collections are plain lists in
insertion order. -/
structure DBState where
  ideas : List (String × Idea)
  comments : List Comment
  votes : List Vote
deriving Repr, DecidableEq

/-- Request body of `POST /api/ideas` (class `CreateIdea` in `main.py`). -/
structure CreateIdea where
  title : String
  description : String
  link : Option String
deriving Repr, DecidableEq

/-- Request body of `POST /api/comments` (class `CreateComment` in `main.py`). -/
structure CreateComment where
  post_id : String
  author : String
  text : String
deriving Repr, DecidableEq

/-- Mongo `find_one` on the idea collection keyed by `_id`: the first
entry with the requested identifier. -/
def find_idea_entry (l : List (String × Idea)) (id : String) : Option (String × Idea) :=
  l.find? (fun p => p.1 == id)

/-- `db["idea"].find_one(\x7b"_id": ObjectId(idea_id)\x7d)` in `main.py`. -/
def find_one_idea (s : DBState) (id : String) : Option Idea :=
  (find_idea_entry s.ideas id).map (fun p => p.2)

/-- `db["vote"].find_one(\x7b"ip": ip\x7d)` in `main.py`, line 141. -/
def find_one_vote (s : DBState) (ip : String) : Option Vote :=
  s.votes.find? (fun v => v.ip == ip)

/-- Mongo `update_one` keyed by `_id` with a modifier `f`: rewrites the
first entry with the requested identifier, leaves the rest unchanged. -/
def update_one_idea (f : Idea → Idea) : List (String × Idea) → String → List (String × Idea)
  | [], _ => []
  | p :: rest, id =>
      if p.1 == id then (p.1, f p.2) :: rest else p :: update_one_idea f rest id

/-- The `inc votes_count 1` modifier of `main.py`, line 150. -/
def incVotes (i : Idea) : Idea := { i with votes_count := i.votes_count + 1 }

/-- The `inc comments_count 1` modifier of `main.py`, line 122. -/
def incComments (i : Idea) : Idea := { i with comments_count := i.comments_count + 1 }

/-- Outcome of `POST /api/ideas/{idea_id}/vote`: the two JSON bodies the
handler returns, or an `HTTPException`. -/
inductive VoteResult where
  | ok (ip : String)
  | already_voted (ip : String)
  | error (status : Nat) (detail : String)
deriving Repr, DecidableEq

/-- `vote_idea` from `main.py`, lines 126-151, with the voter ip already
extracted: ensure the idea exists (404 otherwise), look up an existing
vote by ip (already-voted / 403 on a hit), else record the vote and
increment the idea's `votes_count`. -/
def vote_idea (s : DBState) (idea_id ip : String) : VoteResult × DBState :=
  match find_one_idea s idea_id with
  | none => (VoteResult.error 404 "Idea not found", s)
  | some _ =>
    match find_one_vote s ip with
    | some existing_vote =>
        if existing_vote.post_id == idea_id then
          (VoteResult.already_voted ip, s)
        else
          (VoteResult.error 403 "This IP has already voted for another idea", s)
    | none =>
        (VoteResult.ok ip,
          { s with
            votes := s.votes ++ [{ post_id := idea_id, ip := ip }],
            ideas := update_one_idea incVotes s.ideas idea_id })

/-- Outcome of `POST /api/comments`: the created comment, or an
`HTTPException`. -/
inductive CommentResult where
  | created (c : Comment)
  | error (status : Nat) (detail : String)
deriving Repr, DecidableEq

/-- The `Comment` document built from the request payload. -/
def mkComment (p : CreateComment) : Comment :=
  { post_id := p.post_id, author := p.author, text := p.text }

/-- `add_comment` from `main.py`, lines 111-124: validate the idea
exists (404 otherwise), insert the comment, increment the idea's
`comments_count`, return the created comment. -/
def add_comment (s : DBState) (p : CreateComment) : CommentResult × DBState :=
  match find_one_idea s p.post_id with
  | none => (CommentResult.error 404 "Idea not found", s)
  | some _ =>
      (CommentResult.created (mkComment p),
        { s with
          comments := s.comments ++ [mkComment p],
          ideas := update_one_idea incComments s.ideas p.post_id })

/-- The `Idea` document built from the request payload: counters start
at 0 (`schemas.py` defaults). -/
def mkIdea (p : CreateIdea) : Idea :=
  { title := p.title, description := p.description, link := p.link,
    votes_count := 0, comments_count := 0 }

/-- `create_idea` from `main.py`, lines 65-72: insert a new idea under a
generated identifier. -/
def create_idea (s : DBState) (id : String) (p : CreateIdea) : DBState :=
  { s with ideas := s.ideas ++ [(id, mkIdea p)] }

/-- The three sample payloads of the `seed` endpoint, `main.py` lines 161-177. -/
def sampleSeeds : List CreateIdea :=
  [ { title := "AI-Powered Meeting Notetaker for Open-Source PRs",
      description := "Summarize GitHub PR discussions and suggest action items with vibe coding agents.",
      link := some "https://github.com" },
    { title := "Realtime Design Critique Bot",
      description := "Drop a Figma link and get live critique + code-ready components.",
      link := some "https://figma.com" },
    { title := "CLI to Full SaaS",
      description := "Paste a CLI tool and generate a hosted SaaS with billing and dashboards.",
      link := some "https://example.com" } ]

/-- `seed` from `main.py`, lines 154-181: a no-op when the idea
collection is nonempty, otherwise inserts the sample ideas under the
given generated identifiers. -/
def seed (s : DBState) (ids : List String) : DBState :=
  if s.ideas.length > 0 then s
  else { s with ideas := s.ideas ++ (ids.zip sampleSeeds).map (fun q => (q.1, mkIdea q.2)) }

/-- First entry of a comma-separated forwarded-for value, stripped:
`xff.split(",")[0].strip()` in `main.py`, line 133. -/
def forwarded_first (s : String) : String :=
  ((s.splitOn ",").headD "").trim

/-- The ip expression of `main.py`, line 133. `client` is
`request.client` (the connection peer host, absent when there is no
client address); `xff` is the `x-forwarded-for` header, whose empty
string is falsy in Python. -/
def extract_ip (client : Option String) (xff : Option String) : String :=
  match client, xff with
  | some host, some h => if h = "" then host else forwarded_first h
  | some host, none => host
  | none, some h => if h = "" then "unknown" else forwarded_first h
  | none, none => "unknown"

/-- The empty document store. -/
def initState : DBState := { ideas := [], comments := [], votes := [] }

/-- One state-changing request handled to completion. Generated
document identifiers are fresh (Mongo enforces `_id` uniqueness), which
is the only nondeterminism; read-only endpoints leave the state as is. -/
inductive Step : DBState → DBState → Prop where
  | createIdea (s : DBState) (id : String) (p : CreateIdea)
      (hfresh : find_one_idea s id = none) :
      Step s (create_idea s id p)
  | addComment (s : DBState) (p : CreateComment) :
      Step s (add_comment s p).2
  | voteIdea (s : DBState) (idea_id ip : String) :
      Step s (vote_idea s idea_id ip).2
  | seedIdeas (s : DBState) (ids : List String) (hnodup : ids.Nodup) :
      Step s (seed s ids)
  | readOnly (s : DBState) : Step s s

/-- States reachable from the empty store by handled requests. -/
inductive Reachable : DBState → Prop where
  | init : Reachable initState
  | step {s t : DBState} : Reachable s → Step s t → Reachable t

/-- Number of vote documents for a given idea identifier. -/
def countVotesIn (votes : List Vote) (id : String) : Nat :=
  (votes.filter (fun v => v.post_id == id)).length

/-- Number of comment documents for a given idea identifier. -/
def countCommentsIn (comments : List Comment) (id : String) : Nat :=
  (comments.filter (fun c => c.post_id == id)).length

/-- Number of vote documents in a list recorded for a given ip. -/
def countIpIn (votes : List Vote) (ip : String) : Nat :=
  (votes.filter (fun v => v.ip == ip)).length

/-- Number of vote documents recorded for a given ip. -/
def countVotesByIp (s : DBState) (ip : String) : Nat :=
  countIpIn s.votes ip

/-- Idea identifiers are pairwise distinct. -/
def IdeaKeysNodup (s : DBState) : Prop := (s.ideas.map Prod.fst).Nodup

/-- Spec section 8: for every ip value, at most one vote document. -/
def OneVotePerIp (s : DBState) : Prop := ∀ ip : String, countVotesByIp s ip ≤ 1

/-- Every vote references an existing idea. -/
def VoteRefsValid (s : DBState) : Prop := ∀ v ∈ s.votes, find_one_idea s v.post_id ≠ none

/-- Every comment references an existing idea. -/
def CommentRefsValid (s : DBState) : Prop := ∀ c ∈ s.comments, find_one_idea s c.post_id ≠ none

/-- Spec section 8: each idea's `votes_count` equals the number of vote
documents referencing it. -/
def VotesConsistent (s : DBState) : Prop :=
  ∀ p ∈ s.ideas, p.2.votes_count = countVotesIn s.votes p.1

/-- Spec section 8: each idea's `comments_count` equals the number of
comment documents referencing it. -/
def CommentsConsistent (s : DBState) : Prop :=
  ∀ p ∈ s.ideas, p.2.comments_count = countCommentsIn s.comments p.1

/-- The inductive invariant tying the collections together. -/
def Inv (s : DBState) : Prop :=
  IdeaKeysNodup s ∧ OneVotePerIp s ∧ VoteRefsValid s ∧ CommentRefsValid s ∧
    VotesConsistent s ∧ CommentsConsistent s

/-- A concrete idea used in witness states. -/
def ideaA : Idea :=
  { title := "Test idea", description := "A test idea body",
    link := none, votes_count := 0, comments_count := 0 }

/-- A store holding one idea and one vote from ip `unknown`. -/
def sUnknownVote : DBState :=
  { ideas := [("a", { ideaA with votes_count := 1 })],
    comments := [],
    votes := [{ post_id := "a", ip := "unknown" }] }

/-- A store holding one idea `a` and no votes. -/
def sIdeaOnly : DBState := { ideas := [("a", ideaA)], comments := [], votes := [] }

/-- A store holding ideas `a`, `b` and one vote for `a` from `1.2.3.4`. -/
def sConflict : DBState :=
  { ideas := [("a", { ideaA with votes_count := 1 }), ("b", ideaA)],
    comments := [],
    votes := [{ post_id := "a", ip := "1.2.3.4" }] }

/-- Payload used to create witness ideas. -/
def pIdeaA : CreateIdea :=
  { title := "Test idea", description := "A test idea body", link := none }

/-- Payload used to create witness comments. -/
def pCommentA : CreateComment :=
  { post_id := "a", author := "ada", text := "nice" }

/- ### Helper lemmas on `find?`, `filter` and `update_one_idea` -/

theorem find?_append_some {α : Type} (p : α → Bool) {l₁ : List α} (l₂ : List α) {a : α}
    (h : l₁.find? p = some a) : (l₁ ++ l₂).find? p = some a := by
  simp [List.find?_append, h]

theorem find?_append_none {α : Type} (p : α → Bool) {l₁ : List α} (l₂ : List α)
    (h : l₁.find? p = none) : (l₁ ++ l₂).find? p = l₂.find? p := by
  simp [List.find?_append, h]

theorem update_one_idea_keys (f : Idea → Idea) (l : List (String × Idea)) (id : String) :
    (update_one_idea f l id).map Prod.fst = l.map Prod.fst := by
  induction l with
  | nil => rfl
  | cons q rest ih =>
      cases hb : q.1 == id with
      | true => simp [update_one_idea, hb]
      | false => simp [update_one_idea, hb, ih]

theorem update_one_idea_find_self (f : Idea → Idea) {l : List (String × Idea)}
    {id : String} {q : String × Idea} (h : l.find? (fun p => p.1 == id) = some q) :
    (update_one_idea f l id).find? (fun p => p.1 == id) = some (q.1, f q.2) := by
  induction l with
  | nil => simp at h
  | cons a rest ih =>
      cases hb : a.1 == id with
      | true =>
          simp [List.find?, hb] at h
          cases h
          simp [update_one_idea, hb, List.find?]
      | false =>
          simp [List.find?, hb] at h
          simp [update_one_idea, hb, List.find?, ih h]

theorem update_one_idea_find_ne (f : Idea → Idea) (l : List (String × Idea))
    {id x : String} (h : x ≠ id) :
    (update_one_idea f l id).find? (fun p => p.1 == x) = l.find? (fun p => p.1 == x) := by
  induction l with
  | nil => rfl
  | cons a rest ih =>
      cases hb : a.1 == id with
      | true =>
          have ha : a.1 = id := eq_of_beq hb
          have hx : (a.1 == x) = false := by
            rw [ha]; exact beq_eq_false_iff_ne.2 fun he => h he.symm
          simp [update_one_idea, hb, List.find?, hx]
      | false =>
          cases hx : a.1 == x with
          | true =>
              simp [update_one_idea, hb, List.find?, hx]
          | false =>
              simp [update_one_idea, hb, List.find?, hx, ih]

theorem update_one_idea_of_absent (f : Idea → Idea) {l : List (String × Idea)}
    {id : String} (h : l.find? (fun p => p.1 == id) = none) :
    update_one_idea f l id = l := by
  induction l with
  | nil => rfl
  | cons a rest ih =>
      cases hb : a.1 == id with
      | true =>
          simp only [List.find?, hb] at h
          exact Option.noConfusion h
      | false =>
          simp only [List.find?, hb] at h
          simp [update_one_idea, hb, ih h]

theorem update_one_idea_isSome (f : Idea → Idea) (l : List (String × Idea)) (id x : String) :
    ((update_one_idea f l id).find? (fun p => p.1 == x)).isSome =
      (l.find? (fun p => p.1 == x)).isSome := by
  by_cases hx : x = id
  · subst hx
    cases hfind : l.find? (fun p => p.1 == x) with
    | none => rw [update_one_idea_of_absent f hfind, hfind]
    | some q => simp [update_one_idea_find_self f hfind, hfind]
  · rw [update_one_idea_find_ne f l hx]

theorem countVotesIn_append (votes : List Vote) (v : Vote) (k : String) :
    countVotesIn (votes ++ [v]) k =
      countVotesIn votes k + (if v.post_id == k then 1 else 0) := by
  cases hb : v.post_id == k <;> simp [countVotesIn, List.filter_append, hb]

theorem countCommentsIn_append (comments : List Comment) (c : Comment) (k : String) :
    countCommentsIn (comments ++ [c]) k =
      countCommentsIn comments k + (if c.post_id == k then 1 else 0) := by
  cases hb : c.post_id == k <;> simp [countCommentsIn, List.filter_append, hb]

theorem countIpIn_append (votes : List Vote) (v : Vote) (q : String) :
    countIpIn (votes ++ [v]) q = countIpIn votes q + (if v.ip == q then 1 else 0) := by
  cases hb : v.ip == q <;> simp [countIpIn, List.filter_append, hb]

theorem countIpIn_zero {votes : List Vote} {q : String}
    (h : votes.find? (fun v => v.ip == q) = none) : countIpIn votes q = 0 := by
  have hnil : votes.filter (fun v => v.ip == q) = [] :=
    List.filter_eq_nil_iff.2 (fun v hv => List.find?_eq_none.1 h v hv)
  simp [countIpIn, hnil]

theorem update_consistent_inc (g : Idea → Nat) (f : Idea → Idea)
    (hf : ∀ i, g (f i) = g i + 1) (id : String) (oldCnt newCnt : String → Nat)
    (hinc : newCnt id = oldCnt id + 1)
    (hsame : ∀ k, k ≠ id → newCnt k = oldCnt k)
    (l : List (String × Idea)) :
    (l.map Prod.fst).Nodup → (∀ p ∈ l, g p.2 = oldCnt p.1) →
    ∀ p ∈ update_one_idea f l id, g p.2 = newCnt p.1 := by
  induction l with
  | nil => intro _ _ p hp; simp [update_one_idea] at hp
  | cons a rest ih =>
      intro hnodup hcons p hp
      rw [List.map_cons, List.nodup_cons] at hnodup
      obtain ⟨hnotin, hnd⟩ := hnodup
      cases hb : a.1 == id with
      | true =>
          have ha : a.1 = id := eq_of_beq hb
          rw [show update_one_idea f (a :: rest) id = (a.1, f a.2) :: rest by
            simp [update_one_idea, hb]] at hp
          rcases List.mem_cons.1 hp with hpa | hpr
          · subst hpa
            show g (f a.2) = newCnt a.1
            rw [hf, hcons a (List.mem_cons_self a rest), ha, hinc]
          · have hp1 : p.1 ∈ rest.map Prod.fst := List.mem_map.2 ⟨p, hpr, rfl⟩
            have hne : p.1 ≠ id := by
              intro he
              exact hnotin (by rw [ha, ← he]; exact hp1)
            rw [hsame p.1 hne]
            exact hcons p (List.mem_cons_of_mem a hpr)
      | false =>
          rw [show update_one_idea f (a :: rest) id = a :: update_one_idea f rest id by
            simp [update_one_idea, hb]] at hp
          rcases List.mem_cons.1 hp with hpa | hpr
          · subst hpa
            have hne : p.1 ≠ id := beq_eq_false_iff_ne.1 hb
            rw [hsame p.1 hne]
            exact hcons p (List.mem_cons_self p rest)
          · exact ih hnd (fun q hq => hcons q (List.mem_cons_of_mem a hq)) p hpr

theorem update_consistent_keep (g : Idea → Nat) (f : Idea → Idea)
    (hf : ∀ i, g (f i) = g i) (id : String) (cnt : String → Nat)
    (l : List (String × Idea)) :
    (∀ p ∈ l, g p.2 = cnt p.1) → ∀ p ∈ update_one_idea f l id, g p.2 = cnt p.1 := by
  induction l with
  | nil => intro _ p hp; simp [update_one_idea] at hp
  | cons a rest ih =>
      intro hcons p hp
      cases hb : a.1 == id with
      | true =>
          rw [show update_one_idea f (a :: rest) id = (a.1, f a.2) :: rest by
            simp [update_one_idea, hb]] at hp
          rcases List.mem_cons.1 hp with hpa | hpr
          · subst hpa
            show g (f a.2) = cnt a.1
            rw [hf]
            exact hcons a (List.mem_cons_self a rest)
          · exact hcons p (List.mem_cons_of_mem a hpr)
      | false =>
          rw [show update_one_idea f (a :: rest) id = a :: update_one_idea f rest id by
            simp [update_one_idea, hb]] at hp
          rcases List.mem_cons.1 hp with hpa | hpr
          · subst hpa
            exact hcons p (List.mem_cons_self p rest)
          · exact ih (fun q hq => hcons q (List.mem_cons_of_mem a hq)) p hpr

theorem find_idea_entry_update_none (f : Idea → Idea) (l : List (String × Idea)) (id x : String) :
    find_idea_entry (update_one_idea f l id) x = none ↔ find_idea_entry l x = none := by
  have h := update_one_idea_isSome f l id x
  unfold find_idea_entry
  cases hu : (update_one_idea f l id).find? (fun p => p.1 == x) with
  | none =>
      cases hl : l.find? (fun p => p.1 == x) with
      | none => simp
      | some q => rw [hu, hl] at h; simp at h
  | some q =>
      cases hl : l.find? (fun p => p.1 == x) with
      | none => rw [hu, hl] at h; simp at h
      | some r => simp

theorem find_idea_entry_append_ne_none {l : List (String × Idea)} (e : String × Idea)
    {x : String} (h : find_idea_entry l x ≠ none) :
    find_idea_entry (l ++ [e]) x ≠ none := by
  unfold find_idea_entry at h ⊢
  cases hl : l.find? (fun p => p.1 == x) with
  | none => exact absurd hl h
  | some q => rw [find?_append_some _ _ hl]; simp

theorem not_mem_keys_of_entry_none {l : List (String × Idea)} {id : String}
    (h : find_idea_entry l id = none) : id ∉ l.map Prod.fst := by
  intro hmem
  rcases List.mem_map.1 hmem with ⟨p, hp, hpe⟩
  exact List.find?_eq_none.1 h p hp (by simp [hpe])

theorem countVotesIn_zero_of_no_idea {s : DBState} (hvr : VoteRefsValid s) {id : String}
    (hfresh : find_one_idea s id = none) : countVotesIn s.votes id = 0 := by
  have hnil : s.votes.filter (fun v => v.post_id == id) = [] :=
    List.filter_eq_nil_iff.2 (by
      intro v hv hbeq
      have hne := hvr v hv
      rw [eq_of_beq hbeq] at hne
      exact hne hfresh)
  simp [countVotesIn, hnil]

theorem countCommentsIn_zero_of_no_idea {s : DBState} (hcr : CommentRefsValid s) {id : String}
    (hfresh : find_one_idea s id = none) : countCommentsIn s.comments id = 0 := by
  have hnil : s.comments.filter (fun c => c.post_id == id) = [] :=
    List.filter_eq_nil_iff.2 (by
      intro c hc hbeq
      have hne := hcr c hc
      rw [eq_of_beq hbeq] at hne
      exact hne hfresh)
  simp [countCommentsIn, hnil]

theorem zip_map_fst_sublist {α β : Type} (l₁ : List α) (l₂ : List β) :
    ((l₁.zip l₂).map Prod.fst).Sublist l₁ := by
  induction l₁ generalizing l₂ with
  | nil => simp
  | cons a rest ih =>
      cases l₂ with
      | nil => simp
      | cons b rest₂ => simpa using List.Sublist.cons₂ a (ih rest₂)

/- ### Shape of the handler results -/

theorem vote_idea_state (s : DBState) (id ip : String) :
    (vote_idea s id ip).2 = s ∨
    (find_one_idea s id ≠ none ∧ find_one_vote s ip = none ∧
      (vote_idea s id ip).2 =
        { s with votes := s.votes ++ [{ post_id := id, ip := ip }],
                 ideas := update_one_idea incVotes s.ideas id }) := by
  cases h1 : find_one_idea s id with
  | none => exact Or.inl (by simp [vote_idea, h1])
  | some i =>
      cases h2 : find_one_vote s ip with
      | some v =>
          refine Or.inl ?_
          cases hb : v.post_id == id <;> simp [vote_idea, h1, h2, hb]
      | none => exact Or.inr ⟨by simp [h1], rfl, by simp [vote_idea, h1, h2]⟩

theorem add_comment_state (s : DBState) (p : CreateComment) :
    (add_comment s p).2 = s ∨
    (find_one_idea s p.post_id ≠ none ∧
      (add_comment s p).2 =
        { s with comments := s.comments ++ [mkComment p],
                 ideas := update_one_idea incComments s.ideas p.post_id }) := by
  cases h1 : find_one_idea s p.post_id with
  | none => exact Or.inl (by simp [add_comment, h1])
  | some i => exact Or.inr ⟨by simp [h1], by simp [add_comment, h1]⟩

/- ### Preservation of the invariant -/

theorem inv_insert_vote (s : DBState) (id ip : String)
    (hidea : find_one_idea s id ≠ none) (hvote : find_one_vote s ip = none)
    (hinv : Inv s) :
    Inv { s with votes := s.votes ++ [{ post_id := id, ip := ip }],
                 ideas := update_one_idea incVotes s.ideas id } := by
  obtain ⟨hkeys, hip, hvr, hcr, hvc, hcc⟩ := hinv
  refine ⟨?_, ?_, ?_, ?_, ?_, ?_⟩
  · show ((update_one_idea incVotes s.ideas id).map Prod.fst).Nodup
    rw [update_one_idea_keys]
    exact hkeys
  · intro q
    show countIpIn (s.votes ++ [{ post_id := id, ip := ip }]) q ≤ 1
    rw [countIpIn_append]
    by_cases hq : ip = q
    · subst hq
      simp [countIpIn_zero hvote]
    · have hbf : (({ post_id := id, ip := ip } : Vote).ip == q) = false :=
        beq_eq_false_iff_ne.2 hq
      rw [hbf]
      simpa using hip q
  · intro v hv
    show find_one_idea _ v.post_id ≠ none
    simp only [find_one_idea, ne_eq, Option.map_eq_none']
    rw [find_idea_entry_update_none]
    rcases List.mem_append.1 hv with hvold | hvnew
    · have := hvr v hvold
      simp only [find_one_idea, ne_eq, Option.map_eq_none'] at this
      exact this
    · have hveq : v = { post_id := id, ip := ip } := by simpa using hvnew
      subst hveq
      have := hidea
      simp only [find_one_idea, ne_eq, Option.map_eq_none'] at this
      exact this
  · intro c hc
    show find_one_idea _ c.post_id ≠ none
    simp only [find_one_idea, ne_eq, Option.map_eq_none']
    rw [find_idea_entry_update_none]
    have := hcr c hc
    simp only [find_one_idea, ne_eq, Option.map_eq_none'] at this
    exact this
  · intro p hp
    refine update_consistent_inc (fun i => i.votes_count) incVotes (fun i => rfl) id
      (countVotesIn s.votes) (countVotesIn (s.votes ++ [{ post_id := id, ip := ip }]))
      ?_ ?_ s.ideas hkeys hvc p hp
    · rw [countVotesIn_append]
      simp
    · intro k hk
      rw [countVotesIn_append]
      have hbf : (({ post_id := id, ip := ip } : Vote).post_id == k) = false :=
        beq_eq_false_iff_ne.2 (by simpa using fun he => hk he.symm)
      simp [hbf]
  · intro p hp
    exact update_consistent_keep (fun i => i.comments_count) incVotes (fun i => rfl) id
      (countCommentsIn s.comments) s.ideas hcc p hp

theorem inv_insert_comment (s : DBState) (p : CreateComment)
    (hidea : find_one_idea s p.post_id ≠ none) (hinv : Inv s) :
    Inv { s with comments := s.comments ++ [mkComment p],
                 ideas := update_one_idea incComments s.ideas p.post_id } := by
  obtain ⟨hkeys, hip, hvr, hcr, hvc, hcc⟩ := hinv
  refine ⟨?_, hip, ?_, ?_, ?_, ?_⟩
  · show ((update_one_idea incComments s.ideas p.post_id).map Prod.fst).Nodup
    rw [update_one_idea_keys]
    exact hkeys
  · intro v hv
    show find_one_idea _ v.post_id ≠ none
    simp only [find_one_idea, ne_eq, Option.map_eq_none']
    rw [find_idea_entry_update_none]
    have := hvr v hv
    simp only [find_one_idea, ne_eq, Option.map_eq_none'] at this
    exact this
  · intro c hc
    show find_one_idea _ c.post_id ≠ none
    simp only [find_one_idea, ne_eq, Option.map_eq_none']
    rw [find_idea_entry_update_none]
    rcases List.mem_append.1 hc with hcold | hcnew
    · have := hcr c hcold
      simp only [find_one_idea, ne_eq, Option.map_eq_none'] at this
      exact this
    · have hceq : c = mkComment p := by simpa using hcnew
      subst hceq
      have := hidea
      simp only [find_one_idea, ne_eq, Option.map_eq_none'] at this
      exact this
  · intro q hq
    exact update_consistent_keep (fun i => i.votes_count) incComments (fun i => rfl)
      p.post_id (countVotesIn s.votes) s.ideas hvc q hq
  · intro q hq
    refine update_consistent_inc (fun i => i.comments_count) incComments (fun i => rfl)
      p.post_id (countCommentsIn s.comments)
      (countCommentsIn (s.comments ++ [mkComment p])) ?_ ?_ s.ideas hkeys hcc q hq
    · rw [countCommentsIn_append]
      simp [mkComment]
    · intro k hk
      rw [countCommentsIn_append]
      have hbf : ((mkComment p).post_id == k) = false :=
        beq_eq_false_iff_ne.2 (by simp [mkComment]; exact fun he => hk he.symm)
      simp [hbf]

theorem inv_create_idea (s : DBState) (id : String) (p : CreateIdea)
    (hfresh : find_one_idea s id = none) (hinv : Inv s) :
    Inv (create_idea s id p) := by
  obtain ⟨hkeys, hip, hvr, hcr, hvc, hcc⟩ := hinv
  have hentry : find_idea_entry s.ideas id = none := by
    simpa [find_one_idea, Option.map_eq_none'] using hfresh
  have hnotin : id ∉ s.ideas.map Prod.fst := not_mem_keys_of_entry_none hentry
  refine ⟨?_, hip, ?_, ?_, ?_, ?_⟩
  · show ((s.ideas ++ [(id, mkIdea p)]).map Prod.fst).Nodup
    rw [List.map_append, List.nodup_append]
    exact ⟨hkeys, by simp, by simpa [List.disjoint_singleton] using hnotin⟩
  · intro v hv
    show find_one_idea _ v.post_id ≠ none
    simp only [find_one_idea, ne_eq, Option.map_eq_none']
    exact find_idea_entry_append_ne_none (id, mkIdea p) (by
      have := hvr v hv
      simpa [find_one_idea, Option.map_eq_none'] using this)
  · intro c hc
    show find_one_idea _ c.post_id ≠ none
    simp only [find_one_idea, ne_eq, Option.map_eq_none']
    exact find_idea_entry_append_ne_none (id, mkIdea p) (by
      have := hcr c hc
      simpa [find_one_idea, Option.map_eq_none'] using this)
  · intro q hq
    rcases List.mem_append.1 hq with hqold | hqnew
    · exact hvc q hqold
    · have hqe : q = (id, mkIdea p) := by simpa using hqnew
      subst hqe
      show (mkIdea p).votes_count = countVotesIn s.votes id
      rw [countVotesIn_zero_of_no_idea hvr hfresh]
      rfl
  · intro q hq
    rcases List.mem_append.1 hq with hqold | hqnew
    · exact hcc q hqold
    · have hqe : q = (id, mkIdea p) := by simpa using hqnew
      subst hqe
      show (mkIdea p).comments_count = countCommentsIn s.comments id
      rw [countCommentsIn_zero_of_no_idea hcr hfresh]
      rfl

theorem inv_seed (s : DBState) (ids : List String) (hnodup : ids.Nodup) (hinv : Inv s) :
    Inv (seed s ids) := by
  obtain ⟨hkeys, hip, hvr, hcr, hvc, hcc⟩ := hinv
  unfold seed
  by_cases hlen : s.ideas.length > 0
  · rw [if_pos hlen]
    exact ⟨hkeys, hip, hvr, hcr, hvc, hcc⟩
  · have hideas : s.ideas = [] := List.length_eq_zero.1 (Nat.eq_zero_of_not_pos hlen)
    have hvotes : s.votes = [] := by
      cases hv : s.votes with
      | nil => rfl
      | cons v rest =>
          have := hvr v (by rw [hv]; exact List.mem_cons_self v rest)
          rw [show find_one_idea s v.post_id =
                (find_idea_entry s.ideas v.post_id).map (fun p => p.2) from rfl,
              hideas] at this
          simp [find_idea_entry] at this
    have hcomments : s.comments = [] := by
      cases hc : s.comments with
      | nil => rfl
      | cons c rest =>
          have := hcr c (by rw [hc]; exact List.mem_cons_self c rest)
          rw [show find_one_idea s c.post_id =
                (find_idea_entry s.ideas c.post_id).map (fun p => p.2) from rfl,
              hideas] at this
          simp [find_idea_entry] at this
    rw [if_neg hlen, hideas, hvotes, hcomments]
    refine ⟨?_, ?_, ?_, ?_, ?_, ?_⟩
    · show ((([] : List (String × Idea)) ++ (ids.zip sampleSeeds).map (fun q => (q.1, mkIdea q.2))).map Prod.fst).Nodup
      rw [List.nil_append, List.map_map]
      have hcomp : (Prod.fst ∘ fun q : String × CreateIdea => (q.1, mkIdea q.2)) =
          Prod.fst := by
        funext q
        rfl
      rw [hcomp]
      exact List.Nodup.sublist (zip_map_fst_sublist ids sampleSeeds) hnodup
    · intro q
      show countIpIn [] q ≤ 1
      simp [countIpIn]
    · intro v hv
      exact absurd hv (List.not_mem_nil v)
    · intro c hc
      exact absurd hc (List.not_mem_nil c)
    · intro q hq
      replace hq : q ∈ (ids.zip sampleSeeds).map (fun z => (z.1, mkIdea z.2)) := hq
      rcases List.mem_map.1 hq with ⟨z, hz, hze⟩
      subst hze
      show (mkIdea z.2).votes_count = countVotesIn [] z.1
      rfl
    · intro q hq
      replace hq : q ∈ (ids.zip sampleSeeds).map (fun z => (z.1, mkIdea z.2)) := hq
      rcases List.mem_map.1 hq with ⟨z, hz, hze⟩
      subst hze
      show (mkIdea z.2).comments_count = countCommentsIn [] z.1
      rfl

theorem inv_init : Inv initState := by
  refine ⟨?_, ?_, ?_, ?_, ?_, ?_⟩ <;>
    simp [IdeaKeysNodup, OneVotePerIp, VoteRefsValid, CommentRefsValid, VotesConsistent,
      CommentsConsistent, initState, countVotesByIp, countIpIn]

theorem step_inv {s t : DBState} (hstep : Step s t) (hinv : Inv s) : Inv t := by
  cases hstep with
  | createIdea id p hfresh => exact inv_create_idea s id p hfresh hinv
  | addComment p =>
      rcases add_comment_state s p with he | ⟨hid, he⟩
      · rw [he]
        exact hinv
      · rw [he]
        exact inv_insert_comment s p hid hinv
  | voteIdea idea_id ip =>
      rcases vote_idea_state s idea_id ip with he | ⟨hid, hvn, he⟩
      · rw [he]
        exact hinv
      · rw [he]
        exact inv_insert_vote s idea_id ip hid hvn hinv
  | seedIdeas ids hnd => exact inv_seed s ids hnd hinv
  | readOnly => exact hinv

theorem reachable_inv {s : DBState} (h : Reachable s) : Inv s := by
  induction h with
  | init => exact inv_init
  | step _ hstep ih => exact step_inv hstep ih

/- ### Shared helper for the claim theorems -/

theorem find_entry_update_of_some (f : Idea → Idea) {l : List (String × Idea)}
    {id : String} {i : Idea}
    (h : (find_idea_entry l id).map (fun p => p.2) = some i) :
    (find_idea_entry (update_one_idea f l id) id).map (fun p => p.2) = some (f i) := by
  rcases Option.map_eq_some'.1 h with ⟨q, hq, hqi⟩
  unfold find_idea_entry at hq ⊢
  rw [update_one_idea_find_self f hq]
  simp [hqi]

theorem vote_already_same_aux (t : DBState) (id ip : String) (i : Idea) (v : Vote)
    (h1 : find_one_idea t id = some i) (h2 : find_one_vote t ip = some v)
    (h3 : v.post_id = id) : vote_idea t id ip = (VoteResult.already_voted ip, t) := by
  simp [vote_idea, h1, h2, h3]

/- ### The claims -/

/-- Claim C1: for every idea id referencing an existing idea and every
ip with no vote on record, `vote_idea` returns status `ok` with the ip,
appends exactly one new vote document whose `post_id` is that idea id
and whose `ip` is the voter ip, increments that idea's `votes_count` by
exactly one, and leaves the comment collection unchanged. -/
theorem castVote_records_vote (s : DBState) (id ip : String) (i : Idea)
    (hidea : find_one_idea s id = some i)
    (hvote : find_one_vote s ip = none) :
    (vote_idea s id ip).1 = VoteResult.ok ip ∧
    (vote_idea s id ip).2.votes = s.votes ++ [{ post_id := id, ip := ip }] ∧
    find_one_idea (vote_idea s id ip).2 id =
      some { i with votes_count := i.votes_count + 1 } ∧
    (vote_idea s id ip).2.comments = s.comments := by
  refine ⟨by simp [vote_idea, hidea, hvote], by simp [vote_idea, hidea, hvote], ?_,
    by simp [vote_idea, hidea, hvote]⟩
  have hstate : (vote_idea s id ip).2 =
      { s with votes := s.votes ++ [{ post_id := id, ip := ip }],
               ideas := update_one_idea incVotes s.ideas id } := by
    simp [vote_idea, hidea, hvote]
  rw [hstate]
  show (find_idea_entry (update_one_idea incVotes s.ideas id) id).map (fun p => p.2) =
    some { i with votes_count := i.votes_count + 1 }
  exact find_entry_update_of_some incVotes hidea

/-- Claim C2: when the requesting ip already has a vote whose `post_id`
equals the requested idea id, `vote_idea` is an idempotent success: it
returns `already_voted` with the state completely unchanged; in
particular, after a fresh successful cast the same `(ip, idea)` cast
returns `already_voted` and leaves the post-first-cast state (hence the
count) unchanged. -/
theorem castVote_already_voted_same (s : DBState) (id ip : String) :
    (∀ (i : Idea) (v : Vote), find_one_idea s id = some i →
      find_one_vote s ip = some v → v.post_id = id →
      vote_idea s id ip = (VoteResult.already_voted ip, s)) ∧
    (∀ i : Idea, find_one_idea s id = some i → find_one_vote s ip = none →
      vote_idea (vote_idea s id ip).2 id ip =
        (VoteResult.already_voted ip, (vote_idea s id ip).2)) := by
  constructor
  · intro i v h1 h2 h3
    exact vote_already_same_aux s id ip i v h1 h2 h3
  · intro i h1 h2
    have hstate : (vote_idea s id ip).2 =
        { s with votes := s.votes ++ [{ post_id := id, ip := ip }],
                 ideas := update_one_idea incVotes s.ideas id } := by
      simp [vote_idea, h1, h2]
    have hidea2 : find_one_idea (vote_idea s id ip).2 id = some (incVotes i) := by
      rw [hstate]
      show (find_idea_entry (update_one_idea incVotes s.ideas id) id).map (fun p => p.2) =
        some (incVotes i)
      exact find_entry_update_of_some incVotes h1
    have hfind : (s.votes ++ [({ post_id := id, ip := ip } : Vote)]).find?
        (fun w => w.ip == ip) = some { post_id := id, ip := ip } := by
      rw [find?_append_none _ _ h2]
      simp [List.find?]
    have hvote2 : find_one_vote (vote_idea s id ip).2 ip =
        some { post_id := id, ip := ip } := by
      rw [hstate]
      exact hfind
    exact vote_already_same_aux _ id ip (incVotes i) { post_id := id, ip := ip }
      hidea2 hvote2 rfl

/-- Claim C3: an ip holding a vote for idea A, casting for an existing
idea B with a different id, is rejected with HTTP 403 and the state is
returned unchanged: no vote document is created and no counter moves. -/
theorem castVote_forbidden_other (s : DBState) (id ip : String) (i : Idea) (v : Vote)
    (hidea : find_one_idea s id = some i)
    (hvote : find_one_vote s ip = some v)
    (hdiff : v.post_id ≠ id) :
    vote_idea s id ip =
      (VoteResult.error 403 "This IP has already voted for another idea", s) := by
  have hb : (v.post_id == id) = false := beq_eq_false_iff_ne.2 hdiff
  simp [vote_idea, hidea, hvote, hb]

/-- Claim C4: at every reachable state, each ip value has at most one
vote document, globally across ideas. -/
theorem one_vote_per_ip (s : DBState) (h : Reachable s) : OneVotePerIp s :=
  (reachable_inv h).2.1

/-- Claim C5: at every reachable state, each idea's `votes_count` equals
the number of vote documents whose `post_id` is that idea's id. -/
theorem votes_count_consistent (s : DBState) (h : Reachable s) : VotesConsistent s :=
  (reachable_inv h).2.2.2.2.1

/-- Claim C6: at every reachable state, each idea's `comments_count`
equals the number of comment documents whose `post_id` is that idea's
id; and `add_comment` on an existing idea creates exactly one comment
document and increments that idea's `comments_count` by exactly one. -/
theorem comments_count_consistent (s : DBState) (h : Reachable s) :
    CommentsConsistent s ∧
    ∀ (p : CreateComment) (i : Idea), find_one_idea s p.post_id = some i →
      (add_comment s p).1 = CommentResult.created (mkComment p) ∧
      (add_comment s p).2.comments = s.comments ++ [mkComment p] ∧
      find_one_idea (add_comment s p).2 p.post_id =
        some { i with comments_count := i.comments_count + 1 } := by
  refine ⟨(reachable_inv h).2.2.2.2.2, ?_⟩
  intro p i hp
  refine ⟨by simp [add_comment, hp], by simp [add_comment, hp], ?_⟩
  have hstate : (add_comment s p).2 =
      { s with comments := s.comments ++ [mkComment p],
               ideas := update_one_idea incComments s.ideas p.post_id } := by
    simp [add_comment, hp]
  rw [hstate]
  show (find_idea_entry (update_one_idea incComments s.ideas p.post_id) p.post_id).map
      (fun q => q.2) = some { i with comments_count := i.comments_count + 1 }
  exact find_entry_update_of_some incComments hp

/-- Claim C8: when the requested idea id references no existing idea,
`vote_idea` fails with HTTP 404 and returns the state unchanged, for
every ip. -/
theorem castVote_not_found (s : DBState) (id ip : String)
    (h : find_one_idea s id = none) :
    vote_idea s id ip = (VoteResult.error 404 "Idea not found", s) := by
  simp [vote_idea, h]

/-- Claim C9: when the payload's `post_id` references no existing idea,
`add_comment` fails with HTTP 404 and returns the state unchanged: no
comment document is created and no counter moves. -/
theorem addComment_not_found (s : DBState) (p : CreateComment)
    (h : find_one_idea s p.post_id = none) :
    add_comment s p = (CommentResult.error 404 "Idea not found", s) := by
  simp [add_comment, h]

/-- Claim C10: a request with no x-forwarded-for header and no client
connection address gets the literal voter identity `unknown`; hence at
every reachable state at most one vote document carries ip `unknown`,
and once any vote from `unknown` exists, a further `unknown` cast never
changes the vote collection and never reports a fresh `ok`. -/
theorem unknown_ip_discipline :
    extract_ip none none = "unknown" ∧
    (∀ s : DBState, Reachable s → countVotesByIp s "unknown" ≤ 1) ∧
    (∀ (s : DBState) (id : String) (v : Vote), find_one_vote s "unknown" = some v →
      (vote_idea s id "unknown").2 = s ∧
      (vote_idea s id "unknown").1 ≠ VoteResult.ok "unknown") := by
  refine ⟨rfl, fun s h => (reachable_inv h).2.1 "unknown", ?_⟩
  intro s id v hv
  cases h1 : find_one_idea s id with
  | none => simp [vote_idea, h1]
  | some i =>
      cases hb : v.post_id == id <;> simp [vote_idea, h1, hv, hb]

/- ### Witnesses -/

/-- Witness for C1 at a concrete one-idea store. -/
theorem castVote_records_vote_witness :
    (vote_idea sIdeaOnly "a" "1.2.3.4").1 = VoteResult.ok "1.2.3.4" ∧
    (vote_idea sIdeaOnly "a" "1.2.3.4").2.votes =
      sIdeaOnly.votes ++ [{ post_id := "a", ip := "1.2.3.4" }] :=
  ⟨(castVote_records_vote sIdeaOnly "a" "1.2.3.4" ideaA (by decide) (by decide)).1,
   (castVote_records_vote sIdeaOnly "a" "1.2.3.4" ideaA (by decide) (by decide)).2.1⟩

/-- Witness for C2: a repeated cast at a concrete store, both from a
recorded vote and immediately after a fresh cast. -/
theorem castVote_already_voted_same_witness :
    vote_idea sConflict "a" "1.2.3.4" = (VoteResult.already_voted "1.2.3.4", sConflict) ∧
    vote_idea (vote_idea sIdeaOnly "a" "1.2.3.4").2 "a" "1.2.3.4" =
      (VoteResult.already_voted "1.2.3.4", (vote_idea sIdeaOnly "a" "1.2.3.4").2) :=
  ⟨(castVote_already_voted_same sConflict "a" "1.2.3.4").1
      { ideaA with votes_count := 1 } { post_id := "a", ip := "1.2.3.4" }
      (by decide) (by decide) rfl,
   (castVote_already_voted_same sIdeaOnly "a" "1.2.3.4").2 ideaA (by decide) (by decide)⟩

/-- Witness for C3 at a concrete two-idea store. -/
theorem castVote_forbidden_other_witness :
    vote_idea sConflict "b" "1.2.3.4" =
      (VoteResult.error 403 "This IP has already voted for another idea", sConflict) :=
  castVote_forbidden_other sConflict "b" "1.2.3.4" ideaA { post_id := "a", ip := "1.2.3.4" }
    (by decide) (by decide) (by decide)

/-- Witness for C4 at the state reached by creating an idea and voting. -/
theorem one_vote_per_ip_witness :
    OneVotePerIp ((vote_idea (create_idea initState "a" pIdeaA) "a" "1.2.3.4").2) :=
  one_vote_per_ip _
    (Reachable.step
      (Reachable.step Reachable.init (Step.createIdea initState "a" pIdeaA (by decide)))
      (Step.voteIdea (create_idea initState "a" pIdeaA) "a" "1.2.3.4"))

/-- Witness for C5 at the state reached by seeding the empty store. -/
theorem votes_count_consistent_witness :
    VotesConsistent (seed initState ["s1", "s2", "s3"]) :=
  votes_count_consistent _
    (Reachable.step Reachable.init (Step.seedIdeas initState ["s1", "s2", "s3"] (by decide)))

/-- Witness for C6 at the state reached by creating an idea and commenting. -/
theorem comments_count_consistent_witness :
    CommentsConsistent ((add_comment (create_idea initState "a" pIdeaA) pCommentA).2) ∧
    (add_comment (create_idea initState "a" pIdeaA) pCommentA).2.comments =
      (create_idea initState "a" pIdeaA).comments ++ [mkComment pCommentA] :=
  ⟨(comments_count_consistent _
      (Reachable.step
        (Reachable.step Reachable.init (Step.createIdea initState "a" pIdeaA (by decide)))
        (Step.addComment (create_idea initState "a" pIdeaA) pCommentA))).1,
   ((comments_count_consistent _
      (Reachable.step Reachable.init (Step.createIdea initState "a" pIdeaA (by decide)))).2
      pCommentA (mkIdea pIdeaA) (by decide)).2.1⟩

/-- Witness for C8: voting for an absent idea id at a concrete store
whose ip already voted. -/
theorem castVote_not_found_witness :
    vote_idea sUnknownVote "b" "unknown" = (VoteResult.error 404 "Idea not found", sUnknownVote) :=
  castVote_not_found sUnknownVote "b" "unknown" (by decide)

/-- Witness for C9: commenting on an absent idea id. -/
theorem addComment_not_found_witness :
    add_comment initState pCommentA = (CommentResult.error 404 "Idea not found", initState) :=
  addComment_not_found initState pCommentA (by decide)

/-- Witness for C10 at the empty store and at a store already holding an
`unknown` vote. -/
theorem unknown_ip_discipline_witness :
    countVotesByIp initState "unknown" ≤ 1 ∧
    (vote_idea sUnknownVote "a" "unknown").2 = sUnknownVote :=
  ⟨unknown_ip_discipline.2.1 initState Reachable.init,
   (unknown_ip_discipline.2.2 sUnknownVote "a" { post_id := "a", ip := "unknown" }
      (by decide)).1⟩

end VibeIdeas
